import Mathlib

/-!
# Verification of the listmonk multi-tenant campaign engine

Shallow embedding of the tenant campaign pipe and instance manager
(`internal/manager/tenant_pipe.go`, `internal/manager/tenant_factory.go`,
`internal/core/tenant_core.go`) together with proofs of the specified
properties.  Mutable per-pipe scalars (`atomic.Int64` etc.) are embedded as
fields of an explicit state record; each Go method becomes a pure state
transformer; calls to the external Store and notification sink become an
explicit effect list.
-/

namespace Listmonk

/-- Campaign status constants from the `models` package
(`CampaignStatusDraft` … `CampaignStatusCancelled`). -/
inductive CampaignStatus
  | draft
  | scheduled
  | running
  | paused
  | finished
  | cancelled
deriving DecidableEq, Repr

/-- The fields of `models.Campaign` read by the tenant engine. -/
structure Campaign where
  id : Nat
  name : String
  messenger : String
  status : CampaignStatus
deriving DecidableEq, Repr

/-- The fields of the global `manager.Config` that the tenant code reads
(batch/concurrency/rate limits, error budget, sliding-window settings and
base URLs).  Durations are in abstract ticks (seconds). -/
structure Config where
  BatchSize : Int
  Concurrency : Int
  MessageRate : Int
  MaxSendErrors : Int
  SlidingWindow : Bool
  SlidingWindowRate : Nat
  SlidingWindowDuration : Nat
  FromEmail : String
  RootURL : String
deriving DecidableEq, Repr

/-- The mutable scalar state of a `tenantPipe`:
`sent atomic.Int64`, `lastID atomic.Uint64`, `errors atomic.Uint64`,
`stopped atomic.Bool`, `withErrors atomic.Bool`, the rate counter
(modelled by its event count) and the completion wait-group counter `wg`. -/
structure PipeState where
  sent : Int
  lastID : Nat
  errors : Nat
  rate : Nat
  stopped : Bool
  withErrors : Bool
  wg : Int
deriving DecidableEq, Repr

/-- A fresh pipe as built by `newTenantPipe`: zeroed counters and the
wait-group pre-incremented once (`tp.wg.Add(1)`, the batching sentinel). -/
def initPipeState : PipeState :=
  { sent := 0, lastID := 0, errors := 0, rate := 0
    stopped := false, withErrors := false, wg := 1 }

/-- `tenantPipe.Stop`: a no-op once `stopped` is set; otherwise records
`withErrors` when asked and sets `stopped`. -/
def Stop (withErr : Bool) (p : PipeState) : PipeState :=
  if p.stopped then p
  else { p with withErrors := p.withErrors || withErr, stopped := true }

/-- `tenantPipe.OnError` with the configured `TenantMaxSendErrors = m`:
returns immediately when `m < 1`; otherwise increments the atomic error
counter and, once the count reaches `m`, calls `Stop(true)`. -/
def OnError (m : Int) (p : PipeState) : PipeState :=
  if m < 1 then p
  else
    let count := p.errors + 1
    let q := { p with errors := count }
    if (count : Int) < m then q else Stop true q

/-- Outcome of `Messenger.Push` for one outbound message. -/
inductive PushResult
  | ok
  | fail
deriving DecidableEq, Repr

/-- The worker's handling of one message dequeued from `campMsgQ`
(`tenantInstanceManager.worker`): a message whose pipe is stopped is
discarded after `wg.Done()`; otherwise the message is pushed and, on
failure, `OnError` runs, while on success the watermark is raised when the
subscriber id exceeds it and the rate and sent counters are bumped.  The
watermark conditional is executed here as one step; its finer
load/store granularity is modelled separately below. -/
def workerProcess (m : Int) (subID : Nat) (res : PushResult) (p : PipeState) :
    PipeState :=
  if p.stopped then { p with wg := p.wg - 1 }
  else
    let q := { p with wg := p.wg - 1 }
    match res with
    | .fail => OnError m q
    | .ok =>
        { q with
          lastID := if subID > q.lastID then subID else q.lastID
          rate := q.rate + 1
          sent := q.sent + 1 }

/-- Calls the pipe makes against the Store / notification sink. -/
inductive StoreEffect
  | updateCounts (campID : Nat) (toSend sent : Int) (lastID : Nat)
  | updateStatus (campID : Nat) (st : CampaignStatus)
  | notify (campID : Nat) (st : CampaignStatus) (reason : String)
deriving DecidableEq, Repr

/-- Whether an effect is a notification (`sendTenantNotif`). -/
def StoreEffect.isNotify : StoreEffect → Bool
  | .notify _ _ _ => true
  | _ => false

/-- Whether an effect is a campaign status update. -/
def StoreEffect.isStatusUpdate : StoreEffect → Bool
  | .updateStatus _ _ => true
  | _ => false

/-- `tenantPipe.cleanup`, as the sequence of Store / notification calls it
performs.  `fetched` is the result of `GetTenantCampaign` on the
natural-completion path (`none` models a Store error there, which logs and
returns).  The counts update always runs first; then either the
with-errors path (pause + notification), the manual-stop path (nothing),
or natural completion (finish when still running/scheduled, and notify). -/
def cleanup (p : PipeState) (camp : Campaign) (fetched : Option Campaign) :
    List StoreEffect :=
  let counts := [StoreEffect.updateCounts camp.id 0 p.sent p.lastID]
  if p.withErrors then
    counts ++ [StoreEffect.updateStatus camp.id .paused,
               StoreEffect.notify camp.id .paused "Too many errors"]
  else if p.stopped then
    counts
  else
    match fetched with
    | none => counts
    | some c =>
        if c.status = .running ∨ c.status = .scheduled then
          counts ++ [StoreEffect.updateStatus camp.id .finished,
                     StoreEffect.notify camp.id .finished ""]
        else
          counts ++ [StoreEffect.notify camp.id c.status ""]

/-- The per-pipe effect of `tenantInstanceManager.getCurrentCampaigns`
during a scan tick: read the pipe's current sent count as the delta to
report (`p.sent.Load()`) and reset the counter (`p.sent.Store(0)`). -/
def scanReportPipe (p : PipeState) : Int × PipeState :=
  (p.sent, { p with sent := 0 })

/-- An engine operation touching one pipe's counters: a worker handling a
dequeued message, or the periodic campaign scan reporting the delta. -/
inductive EngineOp
  | deliver (subID : Nat) (res : PushResult)
  | scan
deriving DecidableEq, Repr

/-- Instance-level view of one pipe: the sum of deltas already reported to
the Store by scans, together with the live pipe counters. -/
structure InstState where
  reported : Int
  pipe : PipeState
deriving DecidableEq, Repr

/-- One engine operation on a pipe (`worker` message handling or the
`getCurrentCampaigns` delta report). -/
def engineStep (m : Int) : EngineOp → InstState → InstState
  | .deliver subID res, s => { s with pipe := workerProcess m subID res s.pipe }
  | .scan, s =>
      let r := scanReportPipe s.pipe
      { reported := s.reported + r.1, pipe := r.2 }

/-- Cumulative sent count of a pipe: deltas already reported plus the live
counter. -/
def InstState.cumSent (s : InstState) : Int :=
  s.reported + s.pipe.sent

/-- Why `newTenantPipe` can fail. -/
inductive ConstructFailure
  | unknownMessenger
  | templateError
  | mediaError
deriving DecidableEq, Repr

/-- Observable outcome of `newTenantPipe`: the Store effects performed,
whether a pipe was registered in `tim.pipes`, and the returned error. -/
structure ConstructResult where
  effects : List StoreEffect
  pipeRegistered : Bool
  err : Option ConstructFailure
deriving DecidableEq, Repr

/-- `tenantInstanceManager.newTenantPipe`: an unregistered messenger name
immediately writes status cancelled and fails; a template-compile or
attachment-load failure (external calls, abstracted by the two Booleans)
fails with no Store effect; otherwise the pipe is registered. -/
def newTenantPipe (messengers : List String) (tplOK mediaOK : Bool)
    (c : Campaign) : ConstructResult :=
  if ¬ messengers.contains c.messenger then
    { effects := [StoreEffect.updateStatus c.id .cancelled]
      pipeRegistered := false
      err := some .unknownMessenger }
  else if ¬ tplOK then
    { effects := [], pipeRegistered := false, err := some .templateError }
  else if ¬ mediaOK then
    { effects := [], pipeRegistered := false, err := some .mediaError }
  else
    { effects := [], pipeRegistered := true, err := none }

/-! ## Completion wait-group trace model

The events of one pipe's life that touch its wait-group, at the points the
source performs them: `newTenantMessage` does `tp.wg.Add(1)` per enqueued
message, the worker does `wg.Done()` once per dequeued message (success,
failure or discard alike), and the `run` loop does `tp.wg.Done()` once
when `NextSubscribers` reports no more subscribers, releasing the sentinel
added in `newTenantPipe`. -/

/-- Wait-group events of one pipe. -/
inductive WgEvent
  | enqueue
  | dequeue
  | batchEnd
deriving DecidableEq, Repr

/-- Wait-group-relevant state of one pipe: the wait-group counter, the
number of enqueued-but-not-yet-dequeued messages, and whether the batching
sentinel is still held. -/
structure WgState where
  wg : Int
  inflight : Nat
  batching : Bool
deriving DecidableEq, Repr

/-- State right after `newTenantPipe`: the sentinel `wg.Add(1)` has run,
nothing is in flight, batching is in progress. -/
def wgInit : WgState := { wg := 1, inflight := 0, batching := true }

/-- Which events can occur in a state: messages are enqueued only while
batching is in progress, a dequeue needs an in-flight message, and the
sentinel is released once. -/
def wgEnabled : WgEvent → WgState → Bool
  | .enqueue, s => s.batching
  | .dequeue, s => decide (0 < s.inflight)
  | .batchEnd, s => s.batching

/-- Effect of a wait-group event. -/
def wgStep : WgEvent → WgState → WgState
  | .enqueue, s => { s with wg := s.wg + 1, inflight := s.inflight + 1 }
  | .dequeue, s => { s with wg := s.wg - 1, inflight := s.inflight - 1 }
  | .batchEnd, s => { s with wg := s.wg - 1, batching := false }

/-- Execute a trace of wait-group events. -/
def wgExec (t : List WgEvent) (s : WgState) : WgState :=
  t.foldl (fun a e => wgStep e a) s

/-- A trace is valid from `s` when every event is enabled where it occurs. -/
def wgValid : List WgEvent → WgState → Bool
  | [], _ => true
  | e :: t, s => wgEnabled e s && wgValid t (wgStep e s)

/-- Total wait-group increments along a trace: one at creation
(`newTenantPipe`) plus one per enqueued message. -/
def wgIncr (t : List WgEvent) : Nat :=
  1 + t.count WgEvent.enqueue

/-- Total wait-group decrements along a trace: one per dequeue outcome
plus one when batching ends. -/
def wgDecr (t : List WgEvent) : Nat :=
  t.count WgEvent.dequeue + t.count WgEvent.batchEnd

/-! ## Watermark update at atomic-operation granularity

`worker` advances the watermark with a separate `lastID.Load()` and a
conditional `lastID.Store(id)`; between the two operations of one worker,
another worker may interleave.  Two workers A and B, each completing one
message, are modelled with their loaded value held in `aSeen` / `bSeen`. -/

/-- Shared watermark plus each worker's pending loaded value. -/
structure Wm2State where
  lastID : Nat
  aSeen : Option Nat
  bSeen : Option Nat
deriving DecidableEq, Repr

/-- Atomic events of the two workers' watermark updates: each worker loads
the watermark, then performs the conditional store against the value it
loaded (`if id > r { lastID.Store(id) }`). -/
inductive Wm2Event
  | aLoad
  | aStore
  | bLoad
  | bStore
deriving DecidableEq, Repr

/-- One atomic step; `ida`, `idb` are the two completed subscriber ids. -/
def wm2Step (ida idb : Nat) : Wm2Event → Wm2State → Wm2State
  | .aLoad, s => { s with aSeen := some s.lastID }
  | .aStore, s =>
      match s.aSeen with
      | some r => { s with lastID := if ida > r then ida else s.lastID, aSeen := none }
      | none => s
  | .bLoad, s => { s with bSeen := some s.lastID }
  | .bStore, s =>
      match s.bSeen with
      | some r => { s with lastID := if idb > r then idb else s.lastID, bSeen := none }
      | none => s

/-- Execute an interleaving of the two workers' atomic events. -/
def wm2Exec (ida idb : Nat) (t : List Wm2Event) (s : Wm2State) : Wm2State :=
  t.foldl (fun a e => wm2Step ida idb e a) s

/-- The source's conditional watermark update executed without
interference between its load and its store:
`if id > lastID { lastID.Store(id) }` as one step. -/
def completeAtomic (subID w : Nat) : Nat :=
  if subID > w then subID else w

/-! ## Sliding-window throttle

`tenantPipe.NextSubscribers` runs a sliding-window check after each push
onto `campMsgQ`.  Time is modelled in abstract ticks; between consecutive
pushes an adversarially chosen idle time elapses (rendering, queueing,
other batches).  The state mirrors the manager fields `slidingStart` and
`slidingCount`; in addition the model records every push timestamp and
every window start, so that the throughput bound can be stated. -/

/-- Producer-side sliding-window state
(`tenantInstanceManager.slidingStart` / `slidingCount`), with the history
of push timestamps and of window starts. -/
structure SlidingState where
  now : Nat
  slidingStart : Nat
  slidingCount : Nat
  pushes : List Nat
  starts : List Nat
deriving DecidableEq, Repr

/-- State at instance creation time `t0` (`slidingStart: time.Now()`). -/
def slidingInit (t0 : Nat) : SlidingState :=
  { now := t0, slidingStart := t0, slidingCount := 0
    pushes := [], starts := [t0] }

/-- One iteration of the `NextSubscribers` message loop under the sliding
window (`hasSliding` true, ceiling `R`, duration `D`): after idling `idle`
ticks the producer pushes a message at time `t`; if the window has
elapsed, the window and count restart (the push itself is not counted);
otherwise the count is incremented and, on reaching `R`, reset while the
producer sleeps the remaining window duration. -/
def slidingPush (D R idle : Nat) (s : SlidingState) : SlidingState :=
  let t := s.now + idle
  let s1 := { s with now := t, pushes := s.pushes ++ [t] }
  let diff := t - s1.slidingStart
  if diff ≥ D then
    { s1 with slidingStart := t, slidingCount := 0, starts := s1.starts ++ [t] }
  else
    let c := s1.slidingCount + 1
    if c ≥ R then
      { s1 with slidingCount := 0, now := t + (D - diff) }
    else
      { s1 with slidingCount := c }

/-- A whole production run: one `slidingPush` per element of `idles`. -/
def slidingRun (D R : Nat) (idles : List Nat) (s : SlidingState) : SlidingState :=
  idles.foldl (fun a idle => slidingPush D R idle a) s

/-- Number of pushes falling in the half-open window starting at `w`. -/
def countIn (l : List Nat) (w D : Nat) : Nat :=
  l.countP (fun p => decide (w ≤ p ∧ p < w + D))

/-! ## Tenant configuration loading -/

/-- A value in the tenant's settings map (`map[string]interface{}` decoded
from JSON).  JSON numbers decode to `float64` in Go; the tenant limits are
integral, so numbers are embedded as integers. -/
inductive SettingVal
  | str (s : String)
  | num (x : Int)
  | boolean (b : Bool)
deriving DecidableEq, Repr

/-- The fields of `core.TenantConfig` produced by `loadTenantConfig`. -/
structure TenantConfig where
  toConfig : Config
  TenantID : Nat
  TenantFromEmail : String
  TenantSMTPHost : String
  TenantSMTPPort : Int
  TenantSMTPUsername : String
  TenantSMTPPassword : String
  TenantRootURL : String
  TenantUnsubURL : String
  TenantOptinURL : String
  TenantMessageURL : String
  TenantArchiveURL : String
  TenantMaxBatchSize : Int
  TenantMaxConcurrency : Int
  TenantMessageRate : Int
  TenantMaxSendErrors : Int
deriving DecidableEq, Repr

/-- The limit-selection pattern repeated for each tenant limit in
`loadTenantConfig`: `if v, ok := settings[k].(float64); ok && v > 0`
takes the tenant value, anything else falls back to the global value. -/
def tenantLimit (v : Option SettingVal) (g : Int) : Int :=
  match v with
  | some (.num x) => if x > 0 then x else g
  | _ => g

/-- `TenantManager.loadTenantConfig`, given the settings returned by
`GetTenantSettings`: each limit comes from the tenant's settings when
present as a positive number and from the global config otherwise; the
URL templates are built from the global root URL and the tenant id
(the Go `%%s` placeholders print as literal `%s`). -/
def loadTenantConfig (cfg : Config) (tenantID : Nat)
    (settings : String → Option SettingVal) : TenantConfig :=
  let tPath := cfg.RootURL ++ "/tenant/" ++ toString tenantID
  { toConfig := cfg
    TenantID := tenantID
    TenantFromEmail :=
      match settings "from_email" with
      | some (.str s) => s
      | _ => cfg.FromEmail
    TenantSMTPHost :=
      match settings "smtp_host" with
      | some (.str s) => s
      | _ => ""
    TenantSMTPPort :=
      match settings "smtp_port" with
      | some (.num x) => x
      | _ => 0
    TenantSMTPUsername :=
      match settings "smtp_username" with
      | some (.str s) => s
      | _ => ""
    TenantSMTPPassword :=
      match settings "smtp_password" with
      | some (.str s) => s
      | _ => ""
    TenantRootURL := tPath
    TenantUnsubURL := tPath ++ "/subscription/%s/%s"
    TenantOptinURL := tPath ++ "/subscription/optin/%s?l=%s"
    TenantMessageURL := tPath ++ "/campaign/%s/%s"
    TenantArchiveURL := tPath ++ "/archive"
    TenantMaxBatchSize := tenantLimit (settings "max_batch_size") cfg.BatchSize
    TenantMaxConcurrency := tenantLimit (settings "max_concurrency") cfg.Concurrency
    TenantMessageRate := tenantLimit (settings "message_rate") cfg.MessageRate
    TenantMaxSendErrors := tenantLimit (settings "max_send_errors") cfg.MaxSendErrors }

/-- A tenant setting present as the positive number `x`. -/
def posNumSetting (settings : String → Option SettingVal) (k : String)
    (x : Int) : Prop :=
  settings k = some (.num x) ∧ 0 < x

/-- A concrete campaign used by the witnesses. -/
def campEx : Campaign :=
  { id := 12, name := "newsletter", messenger := "email", status := .running }

/-! ## Helper lemmas on the pipe operations -/

theorem Stop_of_stopped (w : Bool) (q : PipeState) (hq : q.stopped = true) :
    Stop w q = q := by
  simp [Stop, hq]

theorem onError_preserves_stopped (m : Int) (q : PipeState)
    (hq : q.stopped = true) :
    (OnError m q).stopped = true ∧ (OnError m q).withErrors = q.withErrors := by
  unfold OnError Stop
  split_ifs <;> simp_all

theorem iterate_onError_stopped (m : Int) (n : Nat) (q : PipeState)
    (hq : q.stopped = true) :
    ((OnError m)^[n] q).stopped = true ∧
      ((OnError m)^[n] q).withErrors = q.withErrors := by
  induction n with
  | zero => simp [hq]
  | succ k ih =>
      rw [Function.iterate_succ_apply']
      obtain ⟨h1, h2⟩ := ih
      obtain ⟨g1, g2⟩ := onError_preserves_stopped m _ h1
      exact ⟨g1, by rw [g2, h2]⟩

theorem onError_below (m : Int) (p : PipeState) (_hs : p.stopped = false)
    (hlt : ((p.errors : Int) + 1) < m) :
    OnError m p = { p with errors := p.errors + 1 } := by
  have h1 : ¬ m < 1 := by omega
  have h2 : ((p.errors + 1 : Nat) : Int) < m := by push_cast; omega
  dsimp only [OnError]
  rw [if_neg h1, if_pos h2]

theorem onError_reach (m : Int) (p : PipeState) (hs : p.stopped = false)
    (hm : 1 ≤ m) (hge : m ≤ (p.errors : Int) + 1) :
    OnError m p
      = { p with errors := p.errors + 1, stopped := true, withErrors := true } := by
  have h1 : ¬ m < 1 := by omega
  have h2 : ¬ ((p.errors + 1 : Nat) : Int) < m := by push_cast; omega
  dsimp only [OnError]
  rw [if_neg h1, if_neg h2]
  simp [Stop, hs]

theorem onError_frame (m : Int) (p : PipeState) :
    (OnError m p).sent = p.sent ∧ (OnError m p).rate = p.rate ∧
      (OnError m p).lastID = p.lastID ∧ (OnError m p).wg = p.wg := by
  dsimp only [OnError, Stop]
  split_ifs <;> simp

theorem cleanup_stopped_only_counts (p : PipeState) (camp : Campaign)
    (fetched : Option Campaign) (hs : p.stopped = true)
    (he : p.withErrors = false) :
    cleanup p camp fetched
      = [StoreEffect.updateCounts camp.id 0 p.sent p.lastID] := by
  simp [cleanup, hs, he]

theorem cleanup_withErrors_effects (p : PipeState) (camp : Campaign)
    (fetched : Option Campaign) (hw : p.withErrors = true) :
    cleanup p camp fetched
      = [StoreEffect.updateCounts camp.id 0 p.sent p.lastID,
         StoreEffect.updateStatus camp.id .paused,
         StoreEffect.notify camp.id .paused "Too many errors"] := by
  simp [cleanup, hw]

theorem iterate_onError_fresh_below (T : Nat) (k : Nat) (hk : k < T) :
    (OnError (T : Int))^[k] initPipeState
      = { initPipeState with errors := k } := by
  induction k with
  | zero => rfl
  | succ j ih =>
      have hj : j < T := by omega
      rw [Function.iterate_succ_apply', ih hj]
      rw [onError_below (T : Int) _ rfl (by push_cast; omega)]

theorem iterate_onError_fresh_reach (T : Nat) (hT : 1 ≤ T) :
    (OnError (T : Int))^[T] initPipeState
      = { initPipeState with errors := T, stopped := true, withErrors := true } := by
  obtain ⟨j, rfl⟩ : ∃ j, T = j + 1 := ⟨T - 1, by omega⟩
  rw [Function.iterate_succ_apply',
      iterate_onError_fresh_below (j + 1) j (by omega)]
  rw [onError_reach _ _ rfl (by push_cast; omega) (by push_cast; omega)]

/-! ## Claim theorems: error threshold, manual stop, stop precedence,
failed-delivery frame -/

/-- Claim C2: for a running Pipe with error threshold `T ≥ 1`, each
delivery failure increments the error counter; after the `T`-th
consecutive failure the Pipe is flagged stopped and with-errors, further
failures leave both flags unchanged, and cleanup sets the campaign status
to paused and emits exactly one failure notification. -/
theorem error_threshold_pauses (T : Nat) (hT : 1 ≤ T) :
    (∀ k, k ≤ T → ((OnError (T : Int))^[k] initPipeState).errors = k)
    ∧ (∀ k, k < T → ((OnError (T : Int))^[k] initPipeState).stopped = false)
    ∧ ((OnError (T : Int))^[T] initPipeState).stopped = true
    ∧ ((OnError (T : Int))^[T] initPipeState).withErrors = true
    ∧ (∀ j, ((OnError (T : Int))^[j] ((OnError (T : Int))^[T] initPipeState)).stopped = true
          ∧ ((OnError (T : Int))^[j] ((OnError (T : Int))^[T] initPipeState)).withErrors = true)
    ∧ (∀ (camp : Campaign) (fetched : Option Campaign),
        (cleanup ((OnError (T : Int))^[T] initPipeState) camp fetched).filter
            StoreEffect.isStatusUpdate
          = [StoreEffect.updateStatus camp.id .paused]
        ∧ (cleanup ((OnError (T : Int))^[T] initPipeState) camp fetched).filter
            StoreEffect.isNotify
          = [StoreEffect.notify camp.id .paused "Too many errors"]) := by
  have hreach := iterate_onError_fresh_reach T hT
  refine ⟨?_, ?_, ?_, ?_, ?_, ?_⟩
  · intro k hk
    rcases lt_or_eq_of_le hk with h | h
    · rw [iterate_onError_fresh_below T k h]
    · subst h; rw [hreach]
  · intro k hk
    rw [iterate_onError_fresh_below T k hk]
    rfl
  · rw [hreach]
  · rw [hreach]
  · intro j
    have := iterate_onError_stopped (T : Int) j
      ((OnError (T : Int))^[T] initPipeState) (by rw [hreach])
    refine ⟨this.1, ?_⟩
    rw [this.2, hreach]
  · intro camp fetched
    rw [cleanup_withErrors_effects _ _ _ (by rw [hreach])]
    constructor <;> simp [StoreEffect.isStatusUpdate, StoreEffect.isNotify]

theorem error_threshold_pauses_witness :
    1 ≤ 2
    ∧ ((OnError (2 : Int))^[2] initPipeState).stopped = true
    ∧ ((OnError (2 : Int))^[2] initPipeState).withErrors = true
    ∧ (cleanup ((OnError (2 : Int))^[2] initPipeState) campEx none).filter
        StoreEffect.isNotify
      = [StoreEffect.notify campEx.id .paused "Too many errors"] :=
  ⟨by decide, (error_threshold_pauses 2 (by decide)).2.2.1,
    (error_threshold_pauses 2 (by decide)).2.2.2.1,
    ((error_threshold_pauses 2 (by decide)).2.2.2.2.2 campEx none).2⟩

/-- Claim C3: when a Pipe was manually stopped (`stopped` set, no errors),
cleanup performs only the final counts report: no status update and no
notification. -/
theorem manual_stop_cleanup_frame (p : PipeState) (camp : Campaign)
    (fetched : Option Campaign) (hs : p.stopped = true)
    (he : p.withErrors = false) :
    cleanup p camp fetched
        = [StoreEffect.updateCounts camp.id 0 p.sent p.lastID]
    ∧ (cleanup p camp fetched).filter StoreEffect.isStatusUpdate = []
    ∧ (cleanup p camp fetched).filter StoreEffect.isNotify = [] := by
  have h := cleanup_stopped_only_counts p camp fetched hs he
  rw [h]
  exact ⟨rfl, rfl, rfl⟩

theorem manual_stop_cleanup_frame_witness :
    cleanup (Stop false initPipeState) campEx none
      = [StoreEffect.updateCounts 12 0 0 0] :=
  (manual_stop_cleanup_frame (Stop false initPipeState) campEx none
    (by decide) (by decide)).1

/-- Claim C9: `Stop` is idempotent and first-writer-wins on the
with-errors flag: once `stopped` is set every later `Stop` call (also the
`Stop(true)` of the threshold path inside `OnError`) leaves both flags
unchanged, so a manually stopped Pipe stays without errors under any
number of later delivery failures, and its cleanup neither sets the
campaign paused nor notifies. -/
theorem stop_first_writer_wins (p0 : PipeState) (m : Int) (n : Nat)
    (camp : Campaign) (fetched : Option Campaign)
    (hs : p0.stopped = false) (he : p0.withErrors = false) :
    (∀ (q : PipeState) (w : Bool), q.stopped = true → Stop w q = q)
    ∧ ((OnError m)^[n] (Stop false p0)).stopped = true
    ∧ ((OnError m)^[n] (Stop false p0)).withErrors = false
    ∧ (cleanup ((OnError m)^[n] (Stop false p0)) camp fetched).filter
        StoreEffect.isStatusUpdate = []
    ∧ (cleanup ((OnError m)^[n] (Stop false p0)) camp fetched).filter
        StoreEffect.isNotify = [] := by
  have hstop : (Stop false p0).stopped = true := by simp [Stop, hs]
  have hwe : (Stop false p0).withErrors = false := by simp [Stop, hs, he]
  obtain ⟨h1, h2⟩ := iterate_onError_stopped m n (Stop false p0) hstop
  have hwe' : ((OnError m)^[n] (Stop false p0)).withErrors = false := by
    rw [h2, hwe]
  have hcl := cleanup_stopped_only_counts _ camp fetched h1 hwe'
  refine ⟨fun q w hq => Stop_of_stopped w q hq, h1, hwe', ?_, ?_⟩
  · rw [hcl]; rfl
  · rw [hcl]; rfl

theorem stop_first_writer_wins_witness :
    ((OnError 3)^[5] (Stop false initPipeState)).stopped = true
    ∧ ((OnError 3)^[5] (Stop false initPipeState)).withErrors = false :=
  ⟨(stop_first_writer_wins initPipeState 3 5 campEx none rfl rfl).2.1,
    (stop_first_writer_wins initPipeState 3 5 campEx none rfl rfl).2.2.1⟩

/-- Claim C10 counterexample: with threshold 1, a single failed delivery
on a fresh running pipe also flips the `stopped` flag (via
`OnError → Stop(true)`), so a failed delivery does not leave everything
but the error counter and wait-group unchanged. -/
theorem failed_delivery_flips_flags :
    (workerProcess 1 9 PushResult.fail initPipeState).stopped = true
    ∧ initPipeState.stopped = false
    ∧ (workerProcess 1 9 PushResult.fail initPipeState).withErrors = true
    ∧ initPipeState.withErrors = false := by
  decide

/-- Claim C10 as amended: a failed delivery leaves the sent counter, rate
counter and watermark unchanged and decrements the wait-group; below the
threshold (or with the threshold disabled) only the error counter changes
besides, while the failure that reaches the threshold also sets the
stopped and with-errors flags; a message discarded because its pipe is
stopped changes nothing except the wait-group decrement. -/
theorem worker_failure_frame (m : Int) (subID : Nat) (p : PipeState) :
    ((workerProcess m subID .fail p).sent = p.sent
      ∧ (workerProcess m subID .fail p).rate = p.rate
      ∧ (workerProcess m subID .fail p).lastID = p.lastID
      ∧ (workerProcess m subID .fail p).wg = p.wg - 1)
    ∧ (p.stopped = true →
        ∀ res, workerProcess m subID res p = { p with wg := p.wg - 1 })
    ∧ (p.stopped = false → m < 1 →
        workerProcess m subID .fail p = { p with wg := p.wg - 1 })
    ∧ (p.stopped = false → 1 ≤ m → ((p.errors : Int) + 1) < m →
        workerProcess m subID .fail p
          = { p with wg := p.wg - 1, errors := p.errors + 1 })
    ∧ (p.stopped = false → 1 ≤ m → m ≤ ((p.errors : Int) + 1) →
        workerProcess m subID .fail p
          = { p with wg := p.wg - 1, errors := p.errors + 1,
                     stopped := true, withErrors := true }) := by
  refine ⟨?_, ?_, ?_, ?_, ?_⟩
  · by_cases hs : p.stopped = true
    · simp [workerProcess, hs]
    · have hs' : p.stopped = false := by simpa using hs
      have hw : workerProcess m subID .fail p
          = OnError m { p with wg := p.wg - 1 } := by
        simp [workerProcess, hs']
      rw [hw]
      have hf := onError_frame m { p with wg := p.wg - 1 }
      exact ⟨hf.1, hf.2.1, hf.2.2.1, hf.2.2.2⟩
  · intro hs res
    simp [workerProcess, hs]
  · intro hs hm
    simp [workerProcess, hs, OnError, hm]
  · intro hs hm hlt
    simp only [workerProcess, hs, Bool.false_eq_true, if_false]
    rw [onError_below m _ (by simp [hs]) (by simpa using hlt)]
  · intro hs hm hge
    simp only [workerProcess, hs, Bool.false_eq_true, if_false]
    rw [onError_reach m _ (by simp [hs]) hm (by simpa using hge)]

theorem worker_failure_frame_witness :
    workerProcess 5 9 PushResult.fail initPipeState
      = { initPipeState with wg := 0, errors := 1 } := by
  have h := (worker_failure_frame 5 9 initPipeState).2.2.2.1 rfl
    (by decide) (by decide)
  simpa using h

/-! ## Claim theorems: sent counter, pipe construction, watermark -/

theorem workerProcess_sent_mono (m : Int) (subID : Nat) (res : PushResult)
    (p : PipeState) : p.sent ≤ (workerProcess m subID res p).sent := by
  dsimp only [workerProcess]
  by_cases hs : p.stopped = true
  · rw [if_pos hs]
  · rw [if_neg hs]
    cases res
    · simp
    · have h := onError_frame m { p with wg := p.wg - 1 }
      rw [h.1]

theorem engineStep_cumSent_mono (m : Int) (op : EngineOp) (s : InstState) :
    s.cumSent ≤ (engineStep m op s).cumSent := by
  cases op with
  | deliver subID res =>
      have h := workerProcess_sent_mono m subID res s.pipe
      simp only [engineStep, InstState.cumSent]
      omega
  | scan =>
      simp [engineStep, InstState.cumSent, scanReportPipe]

/-- Claim C5 counterexample: after three successful deliveries a pipe's
sent counter is 3, and the next periodic campaign scan
(`getCurrentCampaigns`) stores 0 into it — an engine operation that
decreases the sent counter. -/
theorem scan_resets_sent_counter :
    (engineStep 5 (.deliver 3 .ok)
        (engineStep 5 (.deliver 2 .ok)
          (engineStep 5 (.deliver 1 .ok)
            { reported := 0, pipe := initPipeState }))).pipe.sent = 3
    ∧ (engineStep 5 .scan
        (engineStep 5 (.deliver 3 .ok)
          (engineStep 5 (.deliver 2 .ok)
            (engineStep 5 (.deliver 1 .ok)
              { reported := 0, pipe := initPipeState })))).pipe.sent = 0 := by
  decide

/-- Claim C5 as amended: worker operations never decrease the sent
counter, and the periodic scan reads the current value as the delta
reported to the Store and resets the counter to zero, so the cumulative
sent count (deltas already reported plus the live counter) never
decreases under any sequence of engine operations. -/
theorem sent_cumulative_monotone (m : Int) (ops : List EngineOp)
    (s : InstState) :
    (∀ (subID : Nat) (res : PushResult),
        s.pipe.sent ≤ (engineStep m (.deliver subID res) s).pipe.sent)
    ∧ (engineStep m .scan s).reported = s.reported + s.pipe.sent
    ∧ (engineStep m .scan s).pipe.sent = 0
    ∧ s.cumSent ≤ (ops.foldl (fun a op => engineStep m op a) s).cumSent := by
  refine ⟨fun subID res => workerProcess_sent_mono m subID res s.pipe,
    by simp [engineStep, scanReportPipe],
    by simp [engineStep, scanReportPipe], ?_⟩
  induction ops generalizing s with
  | nil => exact le_refl _
  | cons op t ih =>
      exact le_trans (engineStep_cumSent_mono m op s) (ih (engineStep m op s))

/-- Claim C6 counterexample: a pipe construction that fails with the
messenger registered — here a template-compile failure — returns an error
and registers no pipe, but performs no Store effect at all: the campaign
is not marked cancelled. -/
theorem construction_failure_without_cancel :
    (newTenantPipe ["email"] false true campEx).err = some .templateError
    ∧ (newTenantPipe ["email"] false true campEx).effects = []
    ∧ (newTenantPipe ["email"] false true campEx).pipeRegistered = false := by
  decide

/-- Claim C6 as amended: a due campaign whose declared delivery backend
resolves to no registered messenger is immediately marked cancelled in
the Store, skipped, and no pipe is registered; any other construction
failure (template compile, attachment load) is skipped with no pipe and
no status change; a pipe is registered exactly when construction returns
no error. -/
theorem unknown_messenger_cancels (messengers : List String)
    (tplOK mediaOK : Bool) (c : Campaign) :
    (messengers.contains c.messenger = false →
        newTenantPipe messengers tplOK mediaOK c
          = { effects := [StoreEffect.updateStatus c.id .cancelled]
              pipeRegistered := false
              err := some .unknownMessenger })
    ∧ (messengers.contains c.messenger = true →
        (newTenantPipe messengers tplOK mediaOK c).effects = []
        ∧ ((newTenantPipe messengers tplOK mediaOK c).pipeRegistered = true
            ↔ tplOK = true ∧ mediaOK = true))
    ∧ ((newTenantPipe messengers tplOK mediaOK c).err = none
        ↔ (newTenantPipe messengers tplOK mediaOK c).pipeRegistered = true) := by
  refine ⟨fun h => ?_, fun h => ?_, ?_⟩
  · dsimp only [newTenantPipe]
    have hc : ¬ messengers.contains c.messenger = true := by
      rw [h]; exact Bool.false_ne_true
    rw [if_pos hc]
  · dsimp only [newTenantPipe]
    have hc : ¬ ¬ messengers.contains c.messenger = true := fun hn => hn h
    rw [if_neg hc]
    constructor
    · split_ifs <;> rfl
    · cases tplOK <;> cases mediaOK <;> simp
  · dsimp only [newTenantPipe]
    split_ifs <;> simp

theorem unknown_messenger_cancels_witness :
    newTenantPipe [] true true campEx
      = { effects := [StoreEffect.updateStatus 12 .cancelled]
          pipeRegistered := false
          err := some .unknownMessenger } :=
  (unknown_messenger_cancels [] true true campEx).1 rfl

/-- Claim C4 counterexample: the watermark update in `worker` is a
separate `lastID.Load()` and conditional `lastID.Store`; interleaving two
concurrent worker completions (ids 10 and 7, both loading the initial
watermark 5 before either stores) drives the watermark to 10 and then
back down to 7 — it decreases under this interleaving. -/
theorem watermark_interleaving_decreases :
    (wm2Exec 10 7 [Wm2Event.aLoad, Wm2Event.bLoad, Wm2Event.aStore]
        { lastID := 5, aSeen := none, bSeen := none }).lastID = 10
    ∧ (wm2Exec 10 7
        [Wm2Event.aLoad, Wm2Event.bLoad, Wm2Event.aStore, Wm2Event.bStore]
        { lastID := 5, aSeen := none, bSeen := none }).lastID = 7 := by
  decide

/-- Claim C4 as amended: each worker completion executed without
interference between its load and its store updates the watermark to the
maximum of its current value and the completed subscriber id (this is the
conditional the success path of `worker` performs), so any sequential
composition of completions never decreases the watermark. -/
theorem watermark_atomic_max (m : Int) (w subID : Nat) (ids : List Nat)
    (p : PipeState) :
    completeAtomic subID w = max w subID
    ∧ w ≤ completeAtomic subID w
    ∧ w ≤ ids.foldl (fun a i => completeAtomic i a) w
    ∧ (p.stopped = false →
        (workerProcess m subID PushResult.ok p).lastID = max p.lastID subID) := by
  refine ⟨?_, ?_, ?_, ?_⟩
  · dsimp only [completeAtomic]; split_ifs <;> omega
  · dsimp only [completeAtomic]; split_ifs <;> omega
  · induction ids generalizing w with
    | nil => exact le_refl _
    | cons i t ih =>
        refine le_trans ?_ (ih (completeAtomic i w))
        dsimp only [completeAtomic]; split_ifs <;> omega
  · intro hs
    dsimp only [workerProcess]
    rw [if_neg (by simp [hs])]
    dsimp only
    split_ifs <;> omega

theorem watermark_atomic_max_witness :
    (workerProcess 0 9 PushResult.ok initPipeState).lastID = 9 := by
  have h := (watermark_atomic_max 0 5 9 [] initPipeState).2.2.2 rfl
  simpa using h

/-! ## Claim theorem: tenant configuration -/

theorem tenantLimit_fallback (v : Option SettingVal) (g : Int)
    (h : ∀ x, v = some (.num x) → ¬ 0 < x) : tenantLimit v g = g := by
  rcases v with _ | w
  · rfl
  · rcases w with s | x | b
    · rfl
    · have hx : ¬ x > 0 := h x rfl
      simp [tenantLimit, hx]
    · rfl

/-- Claim C8: the effective tenant configuration takes batch size,
concurrency, message rate and max send errors from the tenant's stored
settings when present and positive and from the global configuration
otherwise, and its URL templates (root, unsubscribe, optin, message,
archive) are per-tenant values built from the root URL and the tenant
id. -/
theorem tenant_config_overrides (cfg : Config) (tid : Nat)
    (settings : String → Option SettingVal) :
    ((∀ x, posNumSetting settings "max_batch_size" x →
        (loadTenantConfig cfg tid settings).TenantMaxBatchSize = x)
      ∧ ((¬ ∃ x, posNumSetting settings "max_batch_size" x) →
        (loadTenantConfig cfg tid settings).TenantMaxBatchSize = cfg.BatchSize))
    ∧ ((∀ x, posNumSetting settings "max_concurrency" x →
        (loadTenantConfig cfg tid settings).TenantMaxConcurrency = x)
      ∧ ((¬ ∃ x, posNumSetting settings "max_concurrency" x) →
        (loadTenantConfig cfg tid settings).TenantMaxConcurrency = cfg.Concurrency))
    ∧ ((∀ x, posNumSetting settings "message_rate" x →
        (loadTenantConfig cfg tid settings).TenantMessageRate = x)
      ∧ ((¬ ∃ x, posNumSetting settings "message_rate" x) →
        (loadTenantConfig cfg tid settings).TenantMessageRate = cfg.MessageRate))
    ∧ ((∀ x, posNumSetting settings "max_send_errors" x →
        (loadTenantConfig cfg tid settings).TenantMaxSendErrors = x)
      ∧ ((¬ ∃ x, posNumSetting settings "max_send_errors" x) →
        (loadTenantConfig cfg tid settings).TenantMaxSendErrors = cfg.MaxSendErrors))
    ∧ ((loadTenantConfig cfg tid settings).TenantRootURL
          = cfg.RootURL ++ "/tenant/" ++ toString tid
      ∧ (loadTenantConfig cfg tid settings).TenantUnsubURL
          = cfg.RootURL ++ "/tenant/" ++ toString tid ++ "/subscription/%s/%s"
      ∧ (loadTenantConfig cfg tid settings).TenantOptinURL
          = cfg.RootURL ++ "/tenant/" ++ toString tid ++ "/subscription/optin/%s?l=%s"
      ∧ (loadTenantConfig cfg tid settings).TenantMessageURL
          = cfg.RootURL ++ "/tenant/" ++ toString tid ++ "/campaign/%s/%s"
      ∧ (loadTenantConfig cfg tid settings).TenantArchiveURL
          = cfg.RootURL ++ "/tenant/" ++ toString tid ++ "/archive") := by
  refine ⟨⟨?_, ?_⟩, ⟨?_, ?_⟩, ⟨?_, ?_⟩, ⟨?_, ?_⟩, rfl, rfl, rfl, rfl, rfl⟩ <;>
    first
    | (intro x hx
       obtain ⟨hset, hpos⟩ := hx
       simp [loadTenantConfig, tenantLimit, hset, hpos])
    | (intro hne
       simp only [loadTenantConfig]
       exact tenantLimit_fallback _ _ fun x hv hpos => hne ⟨x, hv, hpos⟩)

/-- A concrete global configuration used by the witnesses. -/
def cfgEx : Config :=
  { BatchSize := 10, Concurrency := 4, MessageRate := 25, MaxSendErrors := 9
    SlidingWindow := false, SlidingWindowRate := 0, SlidingWindowDuration := 0
    FromEmail := "global@x.example", RootURL := "https://x.example" }

/-- Concrete tenant settings used by the C8 witness: batch size present
and positive, concurrency absent, message rate present but nonpositive,
max send errors present and positive. -/
def settingsEx : String → Option SettingVal := fun k =>
  if k = "max_batch_size" then some (.num 500)
  else if k = "message_rate" then some (.num (-3))
  else if k = "max_send_errors" then some (.num 7)
  else if k = "from_email" then some (.str "tenant@x.example")
  else none

theorem tenant_config_overrides_witness :
    (loadTenantConfig cfgEx 7 settingsEx).TenantMaxBatchSize = 500
    ∧ (loadTenantConfig cfgEx 7 settingsEx).TenantMaxConcurrency = 4
    ∧ (loadTenantConfig cfgEx 7 settingsEx).TenantMessageRate = 25
    ∧ (loadTenantConfig cfgEx 7 settingsEx).TenantMaxSendErrors = 7
    ∧ (loadTenantConfig cfgEx 7 settingsEx).TenantRootURL
        = "https://x.example/tenant/7" := by
  have h := tenant_config_overrides cfgEx 7 settingsEx
  refine ⟨h.1.1 500 ⟨by decide, by decide⟩, ?_, ?_,
    h.2.2.2.1.1 7 ⟨by decide, by decide⟩, ?_⟩
  · have hc : ¬ ∃ x, posNumSetting settingsEx "max_concurrency" x := by
      rintro ⟨x, hx, -⟩
      rw [show settingsEx "max_concurrency" = none from by decide] at hx
      exact Option.noConfusion hx
    exact h.2.1.2 hc
  · have hc : ¬ ∃ x, posNumSetting settingsEx "message_rate" x := by
      rintro ⟨x, hx, hpos⟩
      rw [show settingsEx "message_rate" = some (.num (-3)) from by decide] at hx
      obtain ⟨rfl⟩ : x = -3 := by
        cases hx
        rfl
      omega
    exact h.2.2.1.2 hc
  · have hr := h.2.2.2.2.1
    rw [hr]
    decide

/-! ## Claim theorem: completion wait-group balance -/

/-- The wait-group counter records exactly the in-flight messages plus
the batching sentinel. -/
def wgInv (s : WgState) : Prop :=
  s.wg = (s.inflight : Int) + (if s.batching then 1 else 0)

theorem wgExec_cons (e : WgEvent) (t : List WgEvent) (s : WgState) :
    wgExec (e :: t) s = wgExec t (wgStep e s) := rfl

theorem wgExec_count (t : List WgEvent) (s : WgState) :
    (wgExec t s).wg
      = s.wg + (t.count WgEvent.enqueue : Int)
          - (t.count WgEvent.dequeue : Int)
          - (t.count WgEvent.batchEnd : Int) := by
  induction t generalizing s with
  | nil => simp [wgExec]
  | cons e t ih =>
      rw [wgExec_cons, ih]
      cases e <;> simp [wgStep, List.count_cons] <;> omega

theorem wgInv_preserved (t : List WgEvent) (s : WgState)
    (hv : wgValid t s = true) (hi : wgInv s) : wgInv (wgExec t s) := by
  induction t generalizing s with
  | nil => exact hi
  | cons e t ih =>
      rw [wgValid] at hv
      obtain ⟨he, hv'⟩ := Bool.and_eq_true_iff.mp hv
      rw [wgExec_cons]
      refine ih (wgStep e s) hv' ?_
      cases e with
      | enqueue =>
          simp only [wgInv, wgStep] at hi ⊢
          push_cast
          omega
      | dequeue =>
          have hin : 0 < s.inflight := by
            simpa [wgEnabled] using he
          simp only [wgInv, wgStep] at hi ⊢
          rcases Nat.exists_eq_succ_of_ne_zero (Nat.pos_iff_ne_zero.mp hin)
            with ⟨k, hk⟩
          rw [hk] at hi ⊢
          simp only [Nat.succ_sub_one]
          push_cast at hi ⊢
          omega
      | batchEnd =>
          have hb : s.batching = true := by simpa [wgEnabled] using he
          simp only [wgInv, wgStep, hb] at hi ⊢
          push_cast at hi ⊢
          omega

/-- Claim C1: along any valid event trace of one Pipe, the wait-group
increments (one sentinel at creation plus one per enqueued message) minus
the decrements (one per dequeue outcome plus one when batching ends with
zero subscribers) equal the wait-group counter; the counter is zero
exactly when increments equal decrements, and once it is zero no further
event is enabled, so the cleanup triggered by `wg.Wait()` returning runs
exactly once. -/
theorem wg_balance (t : List WgEvent) (hv : wgValid t wgInit = true) :
    ((wgIncr t : Int) - (wgDecr t : Int) = (wgExec t wgInit).wg)
    ∧ ((wgExec t wgInit).wg = 0 ↔ wgIncr t = wgDecr t)
    ∧ ((wgExec t wgInit).wg = 0 →
        ∀ e, wgEnabled e (wgExec t wgInit) = false) := by
  have hinv : wgInv (wgExec t wgInit) :=
    wgInv_preserved t wgInit hv (by simp [wgInv, wgInit])
  have hcount := wgExec_count t wgInit
  have hbal : (wgIncr t : Int) - (wgDecr t : Int) = (wgExec t wgInit).wg := by
    rw [hcount]
    simp only [wgIncr, wgDecr, wgInit]
    push_cast
    ring
  refine ⟨hbal, ?_, ?_⟩
  · rw [← hbal, sub_eq_zero]
    exact Nat.cast_inj
  · intro h0 e
    rcases hb : (wgExec t wgInit).batching
    · have hinv' : (wgExec t wgInit).wg = ((wgExec t wgInit).inflight : Int) := by
        have h := hinv
        rw [wgInv, hb] at h
        simpa using h
      have hinf : (wgExec t wgInit).inflight = 0 := by omega
      cases e <;> simp [wgEnabled, hinf, hb]
    · exfalso
      have h := hinv
      rw [wgInv, hb] at h
      simp only [if_true] at h
      omega

theorem wg_balance_witness :
    wgValid [WgEvent.enqueue, WgEvent.dequeue, WgEvent.enqueue,
      WgEvent.enqueue, WgEvent.dequeue, WgEvent.batchEnd, WgEvent.dequeue]
        wgInit = true
    ∧ wgIncr [WgEvent.enqueue, WgEvent.dequeue, WgEvent.enqueue,
        WgEvent.enqueue, WgEvent.dequeue, WgEvent.batchEnd, WgEvent.dequeue]
      = wgDecr [WgEvent.enqueue, WgEvent.dequeue, WgEvent.enqueue,
        WgEvent.enqueue, WgEvent.dequeue, WgEvent.batchEnd, WgEvent.dequeue] :=
  ⟨by decide,
    (wg_balance [WgEvent.enqueue, WgEvent.dequeue, WgEvent.enqueue,
      WgEvent.enqueue, WgEvent.dequeue, WgEvent.batchEnd, WgEvent.dequeue]
      (by decide)).2.1.mp (by decide)⟩

/-! ## Claim theorem: sliding-window throttle -/

theorem countIn_append_one (l : List Nat) (t w D : Nat) :
    countIn (l ++ [t]) w D
      = countIn l w D + (if w ≤ t ∧ t < w + D then 1 else 0) := by
  simp [countIn, List.countP_append, List.countP_cons]

theorem countIn_eq_zero_of_lt (l : List Nat) (w D : Nat)
    (h : ∀ p ∈ l, p < w) : countIn l w D = 0 := by
  rw [countIn, List.countP_eq_zero]
  intro p hp
  have := h p hp
  simp only [decide_eq_true_eq]
  omega

theorem slidingPush_reset (D R idle : Nat) (s : SlidingState)
    (h : s.now + idle - s.slidingStart ≥ D) :
    slidingPush D R idle s
      = { now := s.now + idle, slidingStart := s.now + idle
          slidingCount := 0, pushes := s.pushes ++ [s.now + idle]
          starts := s.starts ++ [s.now + idle] } := by
  dsimp only [slidingPush]
  rw [if_pos h]

theorem slidingPush_sleep (D R idle : Nat) (s : SlidingState)
    (h1 : ¬ s.now + idle - s.slidingStart ≥ D)
    (h2 : s.slidingCount + 1 ≥ R) :
    slidingPush D R idle s
      = { s with
          now := (s.now + idle) + (D - (s.now + idle - s.slidingStart))
          slidingCount := 0
          pushes := s.pushes ++ [s.now + idle] } := by
  dsimp only [slidingPush]
  rw [if_neg h1, if_pos h2]

theorem slidingPush_count (D R idle : Nat) (s : SlidingState)
    (h1 : ¬ s.now + idle - s.slidingStart ≥ D)
    (h2 : ¬ s.slidingCount + 1 ≥ R) :
    slidingPush D R idle s
      = { s with
          now := s.now + idle
          slidingCount := s.slidingCount + 1
          pushes := s.pushes ++ [s.now + idle] } := by
  dsimp only [slidingPush]
  rw [if_neg h1, if_neg h2]

/-- Inductive invariant of the sliding-window producer: the window start
never passes the clock and is recorded in the window history; recorded
windows are disjoint and all closed ones lie fully before the current
one; every recorded window holds at most `R + 1` pushes; every push lies
in a recorded window; and while the current window is active the counter
dominates the pushes it has seen, staying below the ceiling. -/
def slidingInv (D R : Nat) (s : SlidingState) : Prop :=
  s.slidingStart ≤ s.now
  ∧ s.slidingStart ∈ s.starts
  ∧ (∀ w ∈ s.starts, w = s.slidingStart ∨ w + D ≤ s.slidingStart)
  ∧ (∀ w ∈ s.starts, countIn s.pushes w D ≤ R + 1)
  ∧ (∀ p ∈ s.pushes, ∃ w ∈ s.starts, w ≤ p ∧ p < w + D)
  ∧ (if s.now < s.slidingStart + D
     then (∀ p ∈ s.pushes, p ≤ s.now)
          ∧ countIn s.pushes s.slidingStart D ≤ s.slidingCount + 1
          ∧ s.slidingCount + 1 ≤ R
     else (∀ p ∈ s.pushes, p < s.now))

theorem slidingInv_init (D R t0 : Nat) (hD : 1 ≤ D) (hR : 1 ≤ R) :
    slidingInv D R (slidingInit t0) := by
  simp only [slidingInv, slidingInit]
  refine ⟨le_refl _, by simp, ?_, ?_, ?_, ?_⟩
  · intro w hw
    simp only [List.mem_singleton] at hw
    exact Or.inl hw
  · intro w _
    simp [countIn]
  · intro p hp
    simp at hp
  · rw [if_pos (by omega)]
    exact ⟨fun p hp => by simp at hp, by simp [countIn], by omega⟩

theorem slidingInv_push (D R idle : Nat) (s : SlidingState) (hD : 1 ≤ D)
    (hR : 1 ≤ R) (h : slidingInv D R s) :
    slidingInv D R (slidingPush D R idle s) := by
  obtain ⟨h1, h2, h3, h4, h5, h6⟩ := h
  by_cases hreset : s.now + idle - s.slidingStart ≥ D
  · -- the window has elapsed: window and count restart at the push time
    rw [slidingPush_reset D R idle s hreset]
    have hst : s.slidingStart + D ≤ s.now + idle := by omega
    have hpold : ∀ p ∈ s.pushes, p < s.now + idle := by
      intro p hp
      by_cases hact : s.now < s.slidingStart + D
      · rw [if_pos hact] at h6
        have := h6.1 p hp
        omega
      · rw [if_neg hact] at h6
        have := h6 p hp
        omega
    simp only [slidingInv]
    refine ⟨le_refl _, by simp, ?_, ?_, ?_, ?_⟩
    · intro w hw
      rcases List.mem_append.mp hw with hw | hw
      · rcases h3 w hw with rfl | hle
        · right; omega
        · right; omega
      · simp only [List.mem_singleton] at hw
        exact Or.inl hw
    · intro w hw
      rcases List.mem_append.mp hw with hw | hw
      · have hwD : w + D ≤ s.now + idle := by
          rcases h3 w hw with rfl | hle <;> omega
        rw [countIn_append_one, if_neg (fun hc => by omega)]
        simpa using h4 w hw
      · simp only [List.mem_singleton] at hw
        subst hw
        rw [countIn_append_one, countIn_eq_zero_of_lt _ _ _ hpold,
          if_pos ⟨le_refl _, by omega⟩]
        omega
    · intro p hp
      rcases List.mem_append.mp hp with hp | hp
      · obtain ⟨w, hw, hb⟩ := h5 p hp
        exact ⟨w, List.mem_append_left _ hw, hb⟩
      · simp only [List.mem_singleton] at hp
        subst hp
        exact ⟨s.now + idle, List.mem_append_right _ (by simp),
          le_refl _, by omega⟩
    · rw [if_pos (by omega)]
      refine ⟨?_, ?_, by omega⟩
      · intro p hp
        rcases List.mem_append.mp hp with hp | hp
        · exact le_of_lt (hpold p hp)
        · simp only [List.mem_singleton] at hp
          omega
      · rw [countIn_append_one, countIn_eq_zero_of_lt _ _ _ hpold,
          if_pos ⟨le_refl _, by omega⟩]
  · -- still inside the window: the push is counted
    have hact : s.now < s.slidingStart + D := by omega
    rw [if_pos hact] at h6
    obtain ⟨hple, hcnt, hcR⟩ := h6
    have htlo : s.slidingStart ≤ s.now + idle := by omega
    have hthi : s.now + idle < s.slidingStart + D := by omega
    by_cases hceil : s.slidingCount + 1 ≥ R
    · -- ceiling reached: count resets and the producer sleeps to window end
      rw [slidingPush_sleep D R idle s hreset hceil]
      simp only [slidingInv]
      have hnow : (s.now + idle) + (D - (s.now + idle - s.slidingStart))
          = s.slidingStart + D := by omega
      refine ⟨by omega, h2, h3, ?_, ?_, ?_⟩
      · intro w hw
        rcases h3 w hw with rfl | hle
        · rw [countIn_append_one, if_pos ⟨htlo, hthi⟩]
          omega
        · rw [countIn_append_one, if_neg (fun hc => by omega)]
          simpa using h4 w hw
      · intro p hp
        rcases List.mem_append.mp hp with hp | hp
        · obtain ⟨w, hw, hb⟩ := h5 p hp
          exact ⟨w, hw, hb⟩
        · simp only [List.mem_singleton] at hp
          subst hp
          exact ⟨s.slidingStart, h2, htlo, hthi⟩
      · rw [if_neg (by omega)]
        intro p hp
        rcases List.mem_append.mp hp with hp | hp
        · have := hple p hp
          omega
        · simp only [List.mem_singleton] at hp
          omega
    · -- below the ceiling: the count advances
      rw [slidingPush_count D R idle s hreset hceil]
      simp only [slidingInv]
      refine ⟨by omega, h2, h3, ?_, ?_, ?_⟩
      · intro w hw
        rcases h3 w hw with rfl | hle
        · rw [countIn_append_one, if_pos ⟨htlo, hthi⟩]
          omega
        · rw [countIn_append_one, if_neg (fun hc => by omega)]
          simpa using h4 w hw
      · intro p hp
        rcases List.mem_append.mp hp with hp | hp
        · obtain ⟨w, hw, hb⟩ := h5 p hp
          exact ⟨w, hw, hb⟩
        · simp only [List.mem_singleton] at hp
          subst hp
          exact ⟨s.slidingStart, h2, htlo, hthi⟩
      · rw [if_pos (by omega)]
        refine ⟨?_, ?_, by omega⟩
        · intro p hp
          rcases List.mem_append.mp hp with hp | hp
          · have := hple p hp
            omega
          · simp only [List.mem_singleton] at hp
            omega
        · rw [countIn_append_one]
          split_ifs <;> omega

theorem slidingInv_run (D R : Nat) (idles : List Nat) (s : SlidingState)
    (hD : 1 ≤ D) (hR : 1 ≤ R) (h : slidingInv D R s) :
    slidingInv D R (slidingRun D R idles s) := by
  induction idles generalizing s with
  | nil => exact h
  | cons idle t ih =>
      exact ih (slidingPush D R idle s) (slidingInv_push D R idle s hD hR h)

/-- Claim C7: with the sliding window configured with duration `D ≥ 1`
and ceiling `R ≥ 1`, a single batching producer running from instance
creation with arbitrary idle times between pushes keeps every window the
algorithm opens to at most `R + 1` pushes — the `R` counted pushes after
which it sleeps the remaining window duration, plus the single uncounted
push that restarted the window at its boundary (the one allowed boundary
burst) — and every push falls inside one of those length-`D` windows. -/
theorem sliding_window_bound (D R t0 : Nat) (idles : List Nat)
    (hD : 1 ≤ D) (hR : 1 ≤ R) :
    (∀ w ∈ (slidingRun D R idles (slidingInit t0)).starts,
        countIn (slidingRun D R idles (slidingInit t0)).pushes w D ≤ R + 1)
    ∧ (∀ p ∈ (slidingRun D R idles (slidingInit t0)).pushes,
        ∃ w ∈ (slidingRun D R idles (slidingInit t0)).starts,
          w ≤ p ∧ p < w + D) := by
  have h := slidingInv_run D R idles (slidingInit t0) hD hR
    (slidingInv_init D R t0 hD hR)
  exact ⟨h.2.2.2.1, h.2.2.2.2.1⟩

theorem sliding_window_bound_witness :
    countIn (slidingRun 10 2 [0, 0, 0, 0, 0] (slidingInit 0)).pushes 0 10 ≤ 3 :=
  (sliding_window_bound 10 2 0 [0, 0, 0, 0, 0] (by decide) (by decide)).1
    0 (by decide)

end Listmonk
